import Mathlib

/- Shallow embedding of the session coordination core of src/index.js
   (a socket.io PDF co-viewing server).

   Modelling decisions, each traced to the source:
   - The global `sessions` object (line 62) is an insertion-ordered
     association list from session id to session record; JS for-in over
     string keys visits insertion order, and property assignment keeps
     the position of an existing key.
   - A session record (lines 82-88) has fields admin, viewers,
     currentPage, pdfUrl, createdAt.  `viewers` is a JS Set, modelled as
     a list with set-style add (append if absent) and delete (filter).
   - socket.io rooms are the broadcast groups: `socket.join(sessionId)`
     at creation (line 89) and join (line 104); `io.to(sessionId).emit`
     (line 129) sends to every current member of the room, the sender
     included.  On disconnect socket.io removes the socket from all
     rooms.
   - The uploads directory is the blob store: a list of base file names.
     `fs.existsSync` is membership, `fs.unlinkSync` is erase, and a
     parameter `failing` says which unlink calls throw; the disconnect
     handler wraps its whole for-in loop in one try/catch (137-156), so
     a throw stops the traversal with the current session not deleted
     and later sessions untouched.
   - Timestamps and page numbers are JS numbers used with - and <,
     modelled as Int.  uuidv4 is modelled by passing the generated id as
     a parameter. -/

namespace PdfCoviewer

abbrev ConnId := String
abbrev SessionId := String

/-- One entry of the `sessions` table, lines 82-88 of src/index.js. -/
structure Session where
  admin : ConnId
  viewers : List ConnId
  currentPage : Int
  pdfUrl : String
  createdAt : Int
deriving DecidableEq

/-- The whole in-process state: the `sessions` object, the socket.io
rooms, and the files currently present in the uploads directory. -/
structure ServerState where
  sessions : List (SessionId × Session)
  rooms : List (SessionId × List ConnId)
  blobs : List String
deriving DecidableEq

/-- Messages emitted to connections over the real-time channel. -/
inductive Msg where
  | sessionCreated (sessionId : SessionId)
  | sessionJoined (pdfUrl : String) (currentPage : Int)
  | pageUpdate (pageNumber : Int)
  | errorMsg (message : String)
deriving DecidableEq

/-- Property read `obj[k]` on a JS object modelled as an association
list: the value at the first (hence, with unique keys, only) entry. -/
def lookupA {β : Type} (k : String) : List (String × β) → Option β
  | [] => none
  | (k2, v) :: rest => if k2 = k then some v else lookupA k rest

/-- Property write `obj[k] = v` when the key is already present:
replace the value in place, keeping the position of the key. -/
def updateA {β : Type} (k : String) (v : β) : List (String × β) → List (String × β)
  | [] => []
  | (k2, v2) :: rest => if k2 = k then (k2, v) :: rest else (k2, v2) :: updateA k v rest

/-- Property write `obj[k] = v`: overwrite in place if present,
otherwise append (JS insertion order of new string keys). -/
def insertA {β : Type} (k : String) (v : β) (l : List (String × β)) : List (String × β) :=
  if (lookupA k l).isSome then updateA k v l else l ++ [(k, v)]

/-- Property delete `delete obj[k]`: remove the entry if present. -/
def deleteA {β : Type} (k : String) : List (String × β) → List (String × β)
  | [] => []
  | (k2, v2) :: rest => if k2 = k then rest else (k2, v2) :: deleteA k rest

/-- JS `Set.add`: a no-op when the element is present, else append. -/
def setAdd (x : String) (l : List String) : List String :=
  if x ∈ l then l else l ++ [x]

/-- JS `Set.delete`: remove the element (a set holds no duplicates, so
filtering every occurrence is the same operation on set-like lists). -/
def setDel (x : String) (l : List String) : List String :=
  l.filter (fun y => y != x)

/-- Character-level worker for `basename`: scan left to right, and
restart the accumulated name at every slash, so that the characters
after the last slash remain. -/
def basenameChars : List Char → List Char → List Char
  | [], acc => acc.reverse
  | ch :: rest, acc =>
      if ch = '/' then basenameChars rest [] else basenameChars rest (ch :: acc)

/-- Node `path.basename`: the part of the URL after the last slash,
as used on line 144 to map `pdfUrl` back to the stored file. -/
def basename (p : String) : String :=
  String.mk (basenameChars p.data [])

/-- socket.join(sid): add the connection to the room, creating the room
on first join; a connection already in the room is not duplicated. -/
def joinRoom (sid : SessionId) (c : ConnId) (rooms : List (SessionId × List ConnId)) :
    List (SessionId × List ConnId) :=
  match lookupA sid rooms with
  | none => rooms ++ [(sid, [c])]
  | some ms => updateA sid (setAdd c ms) rooms

/-- The members of the broadcast group of `sid`; an absent room is the
empty group (io.to on an unknown room reaches nobody). -/
def roomMembers (sid : SessionId) (st : ServerState) : List ConnId :=
  (lookupA sid st.rooms).getD []

/-- Handler of create-session, lines 79-96: allocate the session record
with the requester as admin, currentPage 1 and empty viewer set, join
the requester to the room keyed by the new id, and emit session-created
to the requester. -/
def createSession (connId : ConnId) (sessionId : SessionId) (pdfUrl : String) (now : Int)
    (st : ServerState) : ServerState × List (ConnId × Msg) :=
  let s : Session :=
    { admin := connId, viewers := [], currentPage := 1, pdfUrl := pdfUrl, createdAt := now }
  ({ st with
      sessions := insertA sessionId s st.sessions
      rooms := joinRoom sessionId connId st.rooms },
   [(connId, Msg.sessionCreated sessionId)])

/-- Handler of join-session, lines 98-115: unknown id emits the error
"Session not found" to the requester and changes nothing; otherwise the
requester joins the room, is added to the viewer set, and receives the
pdfUrl and currentPage snapshot. -/
def joinSession (connId : ConnId) (sessionId : SessionId) (st : ServerState) :
    ServerState × List (ConnId × Msg) :=
  match lookupA sessionId st.sessions with
  | none => (st, [(connId, Msg.errorMsg "Session not found")])
  | some s =>
      ({ st with
          rooms := joinRoom sessionId connId st.rooms
          sessions := updateA sessionId { s with viewers := setAdd connId s.viewers } st.sessions },
       [(connId, Msg.sessionJoined s.pdfUrl s.currentPage)])

/-- Handler of page-change, lines 117-135: unknown id emits
"Session not found" to the requester; a requester other than the admin
receives "Unauthorized to change page" and nothing is mutated;
otherwise currentPage becomes pageNumber and page-update is emitted to
every member of the room. -/
def pageChange (connId : ConnId) (sessionId : SessionId) (pageNumber : Int) (st : ServerState) :
    ServerState × List (ConnId × Msg) :=
  match lookupA sessionId st.sessions with
  | none => (st, [(connId, Msg.errorMsg "Session not found")])
  | some s =>
      if s.admin ≠ connId then
        (st, [(connId, Msg.errorMsg "Unauthorized to change page")])
      else
        ({ st with
            sessions := updateA sessionId { s with currentPage := pageNumber } st.sessions },
         (roomMembers sessionId st).map (fun m => (m, Msg.pageUpdate pageNumber)))

/-- The for-in loop of the disconnect handler, lines 140-152, together
with the surrounding try/catch of lines 138-155: sessions are visited
in order; for a session whose admin is the leaving connection the
stored file is unlinked when present and the record deleted, for any
other session the connection is removed from the viewer set.  When an
unlink call throws (`failing` true on that file) control jumps to the
catch outside the loop: the current record is not deleted, the
remaining sessions are not visited.  The Bool of the result records
whether the loop was aborted this way. -/
def disconnectLoop (c : ConnId) (failing : String → Bool) :
    List (SessionId × Session) → List String →
      List (SessionId × Session) × List String × Bool
  | [], blobs => ([], blobs, false)
  | (sid, s) :: rest, blobs =>
      if s.admin = c then
        if (basename s.pdfUrl) ∈ blobs then
          if failing (basename s.pdfUrl) then
            ((sid, s) :: rest, blobs, true)
          else
            disconnectLoop c failing rest (blobs.erase (basename s.pdfUrl))
        else
          disconnectLoop c failing rest blobs
      else
        let r := disconnectLoop c failing rest blobs
        ((sid, { s with viewers := setDel c s.viewers }) :: r.1, r.2.1, r.2.2)

/-- Handler of disconnect, lines 137-156, plus the socket.io built-in
removal of the leaving socket from every room. -/
def handleDisconnect (c : ConnId) (failing : String → Bool) (st : ServerState) : ServerState :=
  let r := disconnectLoop c failing st.sessions st.blobs
  { sessions := r.1
    blobs := r.2.1
    rooms := st.rooms.map (fun p => (p.1, setDel c p.2)) }

/-- The hourly expiry sweep, lines 160-167: delete every session whose
age strictly exceeds 24 hours (86400000 milliseconds). -/
def sweep (now : Int) (st : ServerState) : ServerState :=
  { st with
      sessions := st.sessions.filter (fun p => !(decide (now - p.2.createdAt > 86400000))) }

/-- One inbound event of the core. -/
inductive Op where
  | create (connId : ConnId) (sessionId : SessionId) (pdfUrl : String) (now : Int)
  | join (connId : ConnId) (sessionId : SessionId)
  | page (connId : ConnId) (sessionId : SessionId) (pageNumber : Int)
  | disconnect (connId : ConnId) (failing : String → Bool)

/-- State effect of one event (emitted messages discarded). -/
def step (op : Op) (st : ServerState) : ServerState :=
  match op with
  | .create c sid url now => (createSession c sid url now st).1
  | .join c sid => (joinSession c sid st).1
  | .page c sid n => (pageChange c sid n st).1
  | .disconnect c failing => handleDisconnect c failing st

/-- Serialized processing of a sequence of events. -/
def run : List Op → ServerState → ServerState
  | [], st => st
  | op :: rest, st => run rest (step op st)

/-- The state at process start: no sessions, no rooms, no files. -/
def emptyState : ServerState := { sessions := [], rooms := [], blobs := [] }

/-- A concrete session used to exercise the theorems: controller A,
one viewer B, on page 1. -/
def demoSession : Session :=
  { admin := "A", viewers := ["B"], currentPage := 1
    pdfUrl := "/uploads/doc.pdf", createdAt := 0 }

/-- A concrete state holding `demoSession` under id S, with both A and
B in the broadcast group and the uploaded file present. -/
def demoSt : ServerState :=
  { sessions := [("S", demoSession)]
    rooms := [("S", ["A", "B"])]
    blobs := ["doc.pdf"] }

/-- A session created at time 0, for the sweep theorems. -/
def sweepS1 : Session :=
  { admin := "A", viewers := [], currentPage := 1
    pdfUrl := "/uploads/a.pdf", createdAt := 0 }

/-- A session created at time 1, for the sweep boundary case. -/
def sweepS2 : Session :=
  { admin := "B", viewers := [], currentPage := 1
    pdfUrl := "/uploads/b.pdf", createdAt := 1 }

/-- A state with two sessions of different ages and both files
uploaded, for the sweep theorems. -/
def sweepDemo : ServerState :=
  { sessions := [("S1", sweepS1), ("S2", sweepS2)]
    rooms := []
    blobs := ["a.pdf", "b.pdf"] }

/-- First of two sessions controlled by A, with a viewer still
connected; its uploaded file is doc1.pdf. -/
def failSession1 : Session :=
  { admin := "A", viewers := ["B"], currentPage := 1
    pdfUrl := "/uploads/doc1.pdf", createdAt := 0 }

/-- Second session controlled by A; its uploaded file is doc2.pdf. -/
def failSession2 : Session :=
  { admin := "A", viewers := [], currentPage := 1
    pdfUrl := "/uploads/doc2.pdf", createdAt := 0 }

/-- A state where connection A controls two sessions whose files are
both in the uploads directory. -/
def failSt : ServerState :=
  { sessions := [("S1", failSession1), ("S2", failSession2)]
    rooms := []
    blobs := ["doc1.pdf", "doc2.pdf"] }

/-- An unlink behaviour where deleting doc1.pdf throws (for instance a
permission error) and every other deletion succeeds. -/
def failingUnlink : String → Bool := fun f => f == "doc1.pdf"

/-- Side condition on one event: a join must not target a session the
joining connection itself controls (the code does not police this). -/
def stepOk (op : Op) (st : ServerState) : Bool :=
  match op with
  | .join c sid =>
      match lookupA sid st.sessions with
      | none => true
      | some s => s.admin != c
  | _ => true

/-- A trace satisfies NoSelfJoin when every event, evaluated in the
state it actually runs in, satisfies `stepOk`. -/
def NoSelfJoin : List Op → ServerState → Prop
  | [], _ => True
  | op :: rest, st => stepOk op st = true ∧ NoSelfJoin rest (step op st)

/-- Side condition on one event: a page-change carries a positive page
number (the code does not validate this). -/
def pagePositive (op : Op) : Prop :=
  match op with
  | .page _ _ n => 0 < n
  | _ => True

/-- Trace in which the controller joins its own session. -/
def selfJoinTrace : List Op :=
  [Op.create "A" "S" "/uploads/doc.pdf" 0, Op.join "A" "S"]

/-- The session record reached by `selfJoinTrace`: the controller A
sits inside its own viewer set. -/
def selfJoinResult : Session :=
  { admin := "A", viewers := ["A"], currentPage := 1
    pdfUrl := "/uploads/doc.pdf", createdAt := 0 }

/-- Trace in which a distinct connection B joins the session of A. -/
def okTrace : List Op :=
  [Op.create "A" "S" "/uploads/doc.pdf" 0, Op.join "B" "S"]

/-- The session record reached by `okTrace`. -/
def okResult : Session :=
  { admin := "A", viewers := ["B"], currentPage := 1
    pdfUrl := "/uploads/doc.pdf", createdAt := 0 }

/-- Trace in which the controller sends page number 0, which the
page-change handler accepts unchecked. -/
def zeroPageTrace : List Op :=
  [Op.create "A" "S" "/uploads/doc.pdf" 0, Op.page "A" "S" 0]

/-- The session record reached by `zeroPageTrace`: currentPage is 0,
not a positive integer. -/
def zeroPageResult : Session :=
  { admin := "A", viewers := [], currentPage := 0
    pdfUrl := "/uploads/doc.pdf", createdAt := 0 }

/-- Trace whose only page-change carries the positive number 5. -/
def posTrace : List Op :=
  [Op.create "A" "S" "/uploads/doc.pdf" 0, Op.page "A" "S" 5]

/-- The session record reached by `posTrace`. -/
def posResult : Session :=
  { admin := "A", viewers := [], currentPage := 5
    pdfUrl := "/uploads/doc.pdf", createdAt := 0 }

/- Association-list lemmas. -/

theorem lookupA_eq_none {β : Type} {k : String} {l : List (String × β)} :
    lookupA k l = none ↔ k ∉ l.map Prod.fst := by
  induction l with
  | nil => simp [lookupA]
  | cons p rest ih =>
      obtain ⟨k2, v⟩ := p
      by_cases hk : k2 = k
      · subst hk
        simp [lookupA]
      · simp only [lookupA, hk, if_false, List.map_cons, List.mem_cons, ih]
        constructor
        · rintro h2 (h3 | h3)
          · exact hk h3.symm
          · exact h2 h3
        · intro h2 h3
          exact h2 (Or.inr h3)

theorem lookupA_updateA_self {β : Type} (k : String) (v : β) (l : List (String × β)) :
    lookupA k (updateA k v l) = (lookupA k l).map (fun _ => v) := by
  induction l with
  | nil => simp [lookupA, updateA]
  | cons p rest ih =>
      obtain ⟨k2, w⟩ := p
      by_cases hk : k2 = k
      · subst hk
        simp [lookupA, updateA]
      · simp [lookupA, updateA, hk, ih]

theorem lookupA_updateA_ne {β : Type} {a b : String} (v : β) (l : List (String × β))
    (h : b ≠ a) : lookupA b (updateA a v l) = lookupA b l := by
  induction l with
  | nil => simp [updateA]
  | cons p rest ih =>
      obtain ⟨c, w⟩ := p
      by_cases hc : c = a
      · subst hc
        have hc2 : c ≠ b := fun h2 => h h2.symm
        simp [lookupA, updateA, hc2]
      · by_cases hc2 : c = b
        · subst hc2
          simp [lookupA, updateA, hc]
        · simp [lookupA, updateA, hc, hc2, ih]

theorem updateA_keys {β : Type} (k : String) (v : β) (l : List (String × β)) :
    (updateA k v l).map Prod.fst = l.map Prod.fst := by
  induction l with
  | nil => simp [updateA]
  | cons p rest ih =>
      obtain ⟨k2, w⟩ := p
      by_cases hk : k2 = k
      · subst hk
        simp [updateA]
      · simp [updateA, hk, ih]

theorem updateA_updateA {β : Type} (k : String) (v w : β) (l : List (String × β)) :
    updateA k v (updateA k w l) = updateA k v l := by
  induction l with
  | nil => simp [updateA]
  | cons p rest ih =>
      obtain ⟨k2, u⟩ := p
      by_cases hk : k2 = k
      · subst hk
        simp [updateA]
      · simp [updateA, hk, ih]

theorem updateA_lookup_self {β : Type} {k : String} {v : β} {l : List (String × β)}
    (h : lookupA k l = some v) : updateA k v l = l := by
  induction l with
  | nil => simp [lookupA] at h
  | cons p rest ih =>
      obtain ⟨k2, w⟩ := p
      by_cases hk : k2 = k
      · subst hk
        simp only [lookupA, if_true, Option.some.injEq, eq_self_iff_true] at h
        subst h
        simp [updateA]
      · simp only [lookupA, hk, if_false] at h
        simp [updateA, hk, ih h]

theorem lookupA_append_none {β : Type} {k : String} {l : List (String × β)} (v : β)
    (h : lookupA k l = none) : lookupA k (l ++ [(k, v)]) = some v := by
  induction l with
  | nil => simp [lookupA]
  | cons p rest ih =>
      obtain ⟨k2, w⟩ := p
      by_cases hk : k2 = k
      · subst hk
        simp [lookupA] at h
      · simp only [lookupA, hk, if_false] at h
        simp [lookupA, hk, ih h]

theorem setAdd_mem (x : String) (l : List String) : x ∈ setAdd x l := by
  by_cases h : x ∈ l
  · simp [setAdd, h]
  · simp [setAdd, h]

theorem setAdd_idem (x : String) (l : List String) : setAdd x (setAdd x l) = setAdd x l := by
  have h := setAdd_mem x l
  simp only [setAdd] at h ⊢
  rw [if_pos h]

theorem joinRoom_idem (sid : SessionId) (c : ConnId) (rooms : List (SessionId × List ConnId)) :
    joinRoom sid c (joinRoom sid c rooms) = joinRoom sid c rooms := by
  cases h : lookupA sid rooms with
  | none =>
      have h2 : lookupA sid (rooms ++ [(sid, [c])]) = some [c] := lookupA_append_none [c] h
      have h3 : setAdd c [c] = [c] := by simp [setAdd]
      simp [joinRoom, h, h2, h3, updateA_lookup_self h2]
  | some ms =>
      have h2 : lookupA sid (updateA sid (setAdd c ms) rooms) = some (setAdd c ms) := by
        rw [lookupA_updateA_self, h]
        rfl
      simp [joinRoom, h, h2, setAdd_idem, updateA_updateA]

/-- C1: the page-change handler, on an unknown session id, answers the
requester alone with "Session not found" and changes nothing; on a
requester that is not the controller it answers the requester alone
with "Unauthorized to change page" and changes nothing (in particular
currentPage is not mutated); on the controller it sets currentPage to
the requested number, touches no other session and no room or blob,
and emits the page-update to every member of the broadcast group of
the session, which includes the controller whenever the controller is
in that group (as creation made it). -/
theorem pageChange_contract (c : ConnId) (sid : SessionId) (n : Int) (st : ServerState) :
    (lookupA sid st.sessions = none →
      pageChange c sid n st = (st, [(c, Msg.errorMsg "Session not found")])) ∧
    (∀ s, lookupA sid st.sessions = some s → s.admin ≠ c →
      pageChange c sid n st = (st, [(c, Msg.errorMsg "Unauthorized to change page")])) ∧
    (∀ s, lookupA sid st.sessions = some s → s.admin = c →
      lookupA sid (pageChange c sid n st).1.sessions = some { s with currentPage := n } ∧
      (∀ sid2, sid2 ≠ sid →
        lookupA sid2 (pageChange c sid n st).1.sessions = lookupA sid2 st.sessions) ∧
      (pageChange c sid n st).1.rooms = st.rooms ∧
      (pageChange c sid n st).1.blobs = st.blobs ∧
      (pageChange c sid n st).2 = (roomMembers sid st).map (fun m => (m, Msg.pageUpdate n)) ∧
      (c ∈ roomMembers sid st → (c, Msg.pageUpdate n) ∈ (pageChange c sid n st).2)) := by
  refine ⟨?_, ?_, ?_⟩
  · intro h
    simp [pageChange, h]
  · intro s hs hne
    simp [pageChange, hs, hne]
  · intro s hs hadm
    have hred : pageChange c sid n st =
        ({ st with sessions := updateA sid { s with currentPage := n } st.sessions },
         (roomMembers sid st).map (fun m => (m, Msg.pageUpdate n))) := by
      simp [pageChange, hs, hadm]
    rw [hred]
    refine ⟨?_, ?_, rfl, rfl, rfl, ?_⟩
    · rw [lookupA_updateA_self, hs]
      rfl
    · intro sid2 hne
      exact lookupA_updateA_ne _ _ hne
    · intro hc
      exact List.mem_map_of_mem _ hc

/-- C1 witness: in the demo state the controller A moves session S to
page 5; the stored record now carries page 5 and both group members,
A included, receive the page-update. -/
theorem pageChange_contract_witness :
    lookupA "S" (pageChange "A" "S" 5 demoSt).1.sessions =
      some { demoSession with currentPage := 5 } ∧
    (pageChange "A" "S" 5 demoSt).2 = [("A", Msg.pageUpdate 5), ("B", Msg.pageUpdate 5)] ∧
    ("A", Msg.pageUpdate 5) ∈ (pageChange "A" "S" 5 demoSt).2 := by
  obtain ⟨-, -, h⟩ := pageChange_contract "A" "S" 5 demoSt
  obtain ⟨h1, -, -, -, h5, h6⟩ := h demoSession (by decide) (by decide)
  refine ⟨h1, ?_, h6 (by decide)⟩
  rw [h5]
  decide

/-- C5: one run of the expiry sweep at time now keeps a session record
exactly when it was present and its age is at most 24 hours (86400000
milliseconds), removes every strictly older one, keeps the surviving
records themselves unchanged and in order, and touches neither the
rooms nor the blob store; a session aged exactly 24 hours survives. -/
theorem sweep_removes_exactly_expired (now : Int) (st : ServerState) :
    (∀ sid s, (sid, s) ∈ (sweep now st).sessions ↔
        ((sid, s) ∈ st.sessions ∧ now - s.createdAt ≤ 86400000)) ∧
    (∀ sid s, (sid, s) ∈ st.sessions → now - s.createdAt = 86400000 →
        (sid, s) ∈ (sweep now st).sessions) ∧
    (sweep now st).sessions.Sublist st.sessions ∧
    (sweep now st).rooms = st.rooms ∧
    (sweep now st).blobs = st.blobs := by
  have hmem : ∀ sid s, (sid, s) ∈ (sweep now st).sessions ↔
      ((sid, s) ∈ st.sessions ∧ now - s.createdAt ≤ 86400000) := by
    intro sid s
    simp [sweep, List.mem_filter, not_lt]
  refine ⟨hmem, ?_, ?_, rfl, rfl⟩
  · intro sid s h1 h2
    exact (hmem sid s).2 ⟨h1, le_of_eq h2⟩
  · exact List.filter_sublist _

/-- C5 witness: at time 86400001 the sweep removes the session of age
86400001 and keeps the one of age exactly 86400000 (the boundary),
with the blob store untouched. -/
theorem sweep_removes_exactly_expired_witness :
    ("S2", sweepS2) ∈ (sweep 86400001 sweepDemo).sessions ∧
    ("S1", sweepS1) ∉ (sweep 86400001 sweepDemo).sessions ∧
    (sweep 86400001 sweepDemo).blobs = sweepDemo.blobs := by
  obtain ⟨h1, h2, -, -, h5⟩ := sweep_removes_exactly_expired 86400001 sweepDemo
  refine ⟨h2 "S2" sweepS2 (by decide) (by decide), ?_, h5⟩
  intro hmem
  have h6 := ((h1 "S1" sweepS1).1 hmem).2
  revert h6
  decide

/-- C6: a join request naming a session id absent from the store sends
"Session not found" to the requester alone and returns the state
completely unchanged: no record created, nothing mutated. -/
theorem join_unknown_session (c : ConnId) (sid : SessionId) (st : ServerState)
    (h : lookupA sid st.sessions = none) :
    joinSession c sid st = (st, [(c, Msg.errorMsg "Session not found")]) := by
  simp [joinSession, h]

/-- C6 witness: joining the unknown id X in the demo state yields the
error and the very same state. -/
theorem join_unknown_session_witness :
    joinSession "B" "X" demoSt = (demoSt, [("B", Msg.errorMsg "Session not found")]) :=
  join_unknown_session "B" "X" demoSt (by decide)

/-- C8: joining an existing session twice with the same connection is
idempotent: the second join call returns both the same state and the
same documentUrl/currentPage snapshot message as the first. -/
theorem join_idempotent (c : ConnId) (sid : SessionId) (st : ServerState) (s : Session)
    (h : lookupA sid st.sessions = some s) :
    joinSession c sid (joinSession c sid st).1 = joinSession c sid st := by
  have h1 : lookupA sid (updateA sid { s with viewers := setAdd c s.viewers } st.sessions)
      = some { s with viewers := setAdd c s.viewers } := by
    rw [lookupA_updateA_self, h]
    rfl
  simp only [joinSession, h, h1]
  rw [setAdd_idem, joinRoom_idem, updateA_updateA]

/-- C8 witness: viewer B joining session S of the demo state twice
lands in the same state with the same snapshot as joining once. -/
theorem join_idempotent_witness :
    joinSession "B" "S" (joinSession "B" "S" demoSt).1 = joinSession "B" "S" demoSt :=
  join_idempotent "B" "S" demoSt demoSession (by decide)

/-- C10: the expiry sweep deletes only in-memory session records: the
blob store is left exactly as it was, so the uploaded file of an
expired session (unlike one torn down by controller disconnect)
survives in the blob store after the record is gone. -/
theorem sweep_leaves_blob_store_untouched (now : Int) (st : ServerState) :
    (sweep now st).blobs = st.blobs ∧
    (∀ sid s, (sid, s) ∈ st.sessions → now - s.createdAt > 86400000 →
        (sid, s) ∉ (sweep now st).sessions ∧
        (basename s.pdfUrl ∈ st.blobs → basename s.pdfUrl ∈ (sweep now st).blobs)) := by
  refine ⟨rfl, ?_⟩
  intro sid s hmem hexp
  refine ⟨?_, fun hb => hb⟩
  intro hmem2
  simp only [sweep, List.mem_filter, Bool.not_eq_eq_eq_not, Bool.not_true,
    decide_eq_false_iff_not, not_lt] at hmem2
  omega

/-- C10 witness: the session of age 86400001 is removed by the sweep
while its uploaded file a.pdf is still in the blob store. -/
theorem sweep_leaves_blob_store_untouched_witness :
    ("S1", sweepS1) ∉ (sweep 86400001 sweepDemo).sessions ∧
    basename sweepS1.pdfUrl ∈ (sweep 86400001 sweepDemo).blobs := by
  obtain ⟨-, h⟩ := sweep_leaves_blob_store_untouched 86400001 sweepDemo
  obtain ⟨h1, h2⟩ := h "S1" sweepS1 (by decide) (by decide)
  exact ⟨h1, h2 (by decide)⟩

/- Lemmas about the disconnect traversal. -/

theorem setDel_not_mem (x : String) (l : List String) : x ∉ setDel x l := by
  simp [setDel, List.mem_filter]

theorem mem_setDel_iff {x y : String} (l : List String) (h : y ≠ x) :
    y ∈ setDel x l ↔ y ∈ l := by
  simp [setDel, List.mem_filter, h]

theorem lookupA_isSome_mem {β : Type} {k : String} {l : List (String × β)} {v : β}
    (h : lookupA k l = some v) : k ∈ l.map Prod.fst := by
  by_contra h2
  rw [lookupA_eq_none.2 h2] at h
  cases h

theorem disconnectLoop_keys_sublist (c : ConnId) (failing : String → Bool)
    (l : List (SessionId × Session)) :
    ∀ b : List String,
      ((disconnectLoop c failing l b).1.map Prod.fst).Sublist (l.map Prod.fst) := by
  induction l with
  | nil =>
      intro b
      simp [disconnectLoop]
  | cons p rest ih =>
      intro b
      obtain ⟨sid0, s0⟩ := p
      by_cases ha : s0.admin = c
      · by_cases hm : basename s0.pdfUrl ∈ b
        · cases hfail : failing (basename s0.pdfUrl) with
          | true =>
              simp only [disconnectLoop, ha, hm, hfail, if_true, if_pos]
              exact List.Sublist.refl _
          | false =>
              simp only [disconnectLoop, ha, hm, hfail, if_true, if_pos, if_false,
                Bool.false_eq_true]
              exact (ih (b.erase (basename s0.pdfUrl))).cons _
        · simp only [disconnectLoop, ha, hm, if_true, if_false]
          exact (ih b).cons _
      · simp only [disconnectLoop, ha, if_false, List.map_cons]
        exact (ih b).cons₂ _

theorem disconnectLoop_blobs_sublist (c : ConnId) (failing : String → Bool)
    (l : List (SessionId × Session)) :
    ∀ b : List String, ((disconnectLoop c failing l b).2.1).Sublist b := by
  induction l with
  | nil =>
      intro b
      simp [disconnectLoop]
  | cons p rest ih =>
      intro b
      obtain ⟨sid0, s0⟩ := p
      by_cases ha : s0.admin = c
      · by_cases hm : basename s0.pdfUrl ∈ b
        · cases hfail : failing (basename s0.pdfUrl) with
          | true =>
              simp only [disconnectLoop, ha, hm, hfail, if_true, if_pos]
              exact List.Sublist.refl _
          | false =>
              simp only [disconnectLoop, ha, hm, hfail, if_true, if_pos, if_false,
                Bool.false_eq_true]
              exact (ih (b.erase (basename s0.pdfUrl))).trans
                (List.erase_sublist (basename s0.pdfUrl) b)
        · simp only [disconnectLoop, ha, hm, if_true, if_false]
          exact ih b
      · simp only [disconnectLoop, ha, if_false]
        exact ih b

theorem disconnectLoop_lookup_src (c : ConnId) (failing : String → Bool)
    (l : List (SessionId × Session)) :
    ∀ (b : List String) (sid : SessionId) (s2 : Session),
      (l.map Prod.fst).Nodup →
      lookupA sid (disconnectLoop c failing l b).1 = some s2 →
      ∃ s, lookupA sid l = some s ∧
        (s2 = s ∨ s2 = { s with viewers := setDel c s.viewers }) := by
  induction l with
  | nil =>
      intro b sid s2 _ h
      simp [disconnectLoop, lookupA] at h
  | cons p rest ih =>
      intro b sid s2 hnd h
      obtain ⟨sid0, s0⟩ := p
      simp only [List.map_cons, List.nodup_cons] at hnd
      obtain ⟨hout, hnd2⟩ := hnd
      by_cases hsid : sid0 = sid
      · subst hsid
        by_cases ha : s0.admin = c
        · by_cases hm : basename s0.pdfUrl ∈ b
          · cases hfail : failing (basename s0.pdfUrl) with
            | true =>
                simp only [disconnectLoop, ha, hm, hfail, if_true, if_pos, lookupA,
                  Option.some.injEq] at h
                exact ⟨s0, by simp [lookupA], Or.inl h.symm⟩
            | false =>
                exfalso
                simp only [disconnectLoop, ha, hm, hfail, if_true, if_pos, if_false,
                  Bool.false_eq_true] at h
                have h2 := (disconnectLoop_keys_sublist c failing rest
                  (b.erase (basename s0.pdfUrl))).subset (lookupA_isSome_mem h)
                exact hout h2
          · exfalso
            simp only [disconnectLoop, ha, hm, if_true, if_false] at h
            have h2 := (disconnectLoop_keys_sublist c failing rest b).subset
              (lookupA_isSome_mem h)
            exact hout h2
        · simp only [disconnectLoop, ha, if_false, lookupA, if_pos, Option.some.injEq] at h
          exact ⟨s0, by simp [lookupA], Or.inr h.symm⟩
      · have hlk : lookupA sid ((sid0, s0) :: rest) = lookupA sid rest := by
          simp [lookupA, hsid]
        rw [hlk]
        by_cases ha : s0.admin = c
        · by_cases hm : basename s0.pdfUrl ∈ b
          · cases hfail : failing (basename s0.pdfUrl) with
            | true =>
                simp only [disconnectLoop, ha, hm, hfail, if_true, if_pos, lookupA, hsid,
                  if_false] at h
                exact ⟨s2, h, Or.inl rfl⟩
            | false =>
                simp only [disconnectLoop, ha, hm, hfail, if_true, if_pos, if_false,
                  Bool.false_eq_true] at h
                exact ih (b.erase (basename s0.pdfUrl)) sid s2 hnd2 h
          · simp only [disconnectLoop, ha, hm, if_true, if_false] at h
            exact ih b sid s2 hnd2 h
        · simp only [disconnectLoop, ha, if_false, lookupA, hsid] at h
          exact ih b sid s2 hnd2 h

theorem disconnectLoop_admin_teardown (c : ConnId) (failing : String → Bool)
    (hf : ∀ f, failing f = false) (l : List (SessionId × Session)) :
    ∀ (b : List String) (sid : SessionId) (s : Session),
      (l.map Prod.fst).Nodup → b.Nodup →
      lookupA sid l = some s → s.admin = c →
      lookupA sid (disconnectLoop c failing l b).1 = none ∧
      basename s.pdfUrl ∉ (disconnectLoop c failing l b).2.1 := by
  induction l with
  | nil =>
      intro b sid s _ _ hs _
      simp [lookupA] at hs
  | cons p rest ih =>
      intro b sid s hnd hb hs ha
      obtain ⟨sid0, s0⟩ := p
      simp only [List.map_cons, List.nodup_cons] at hnd
      obtain ⟨hout, hnd2⟩ := hnd
      by_cases hsid : sid0 = sid
      · subst hsid
        simp only [lookupA, if_pos, Option.some.injEq] at hs
        subst hs
        by_cases hm : basename s0.pdfUrl ∈ b
        · simp only [disconnectLoop, ha, hm, hf, if_true, if_pos, if_false,
            Bool.false_eq_true]
          constructor
          · exact lookupA_eq_none.2 fun h2 =>
              hout ((disconnectLoop_keys_sublist c failing rest _).subset h2)
          · intro h2
            have h3 := (disconnectLoop_blobs_sublist c failing rest
              (b.erase (basename s0.pdfUrl))).subset h2
            exact hb.not_mem_erase h3
        · simp only [disconnectLoop, ha, hm, if_true, if_false]
          constructor
          · exact lookupA_eq_none.2 fun h2 =>
              hout ((disconnectLoop_keys_sublist c failing rest b).subset h2)
          · intro h2
            exact hm ((disconnectLoop_blobs_sublist c failing rest b).subset h2)
      · have hs2 : lookupA sid rest = some s := by
          simpa [lookupA, hsid] using hs
        by_cases ha0 : s0.admin = c
        · by_cases hm : basename s0.pdfUrl ∈ b
          · simp only [disconnectLoop, ha0, hm, hf, if_true, if_pos, if_false,
              Bool.false_eq_true]
            exact ih (b.erase (basename s0.pdfUrl)) sid s hnd2 (hb.erase _) hs2 ha
          · simp only [disconnectLoop, ha0, hm, if_true, if_false]
            exact ih b sid s hnd2 hb hs2 ha
        · simp only [disconnectLoop, ha0, if_false]
          have h3 := ih b sid s hnd2 hb hs2 ha
          constructor
          · simpa [lookupA, hsid] using h3.1
          · exact h3.2

theorem disconnectLoop_viewer_frame (c : ConnId) (failing : String → Bool)
    (hf : ∀ f, failing f = false) (l : List (SessionId × Session)) :
    ∀ (b : List String) (sid : SessionId) (s : Session),
      lookupA sid l = some s → s.admin ≠ c →
      lookupA sid (disconnectLoop c failing l b).1 =
        some { s with viewers := setDel c s.viewers } := by
  induction l with
  | nil =>
      intro b sid s hs _
      simp [lookupA] at hs
  | cons p rest ih =>
      intro b sid s hs ha
      obtain ⟨sid0, s0⟩ := p
      by_cases hsid : sid0 = sid
      · subst hsid
        simp only [lookupA, if_pos, Option.some.injEq] at hs
        subst hs
        simp [disconnectLoop, ha, lookupA]
      · have hs2 : lookupA sid rest = some s := by
          simpa [lookupA, hsid] using hs
        by_cases ha0 : s0.admin = c
        · by_cases hm : basename s0.pdfUrl ∈ b
          · simp only [disconnectLoop, ha0, hm, hf, if_true, if_pos, if_false,
              Bool.false_eq_true]
            exact ih (b.erase (basename s0.pdfUrl)) sid s hs2 ha
          · simp only [disconnectLoop, ha0, hm, if_true, if_false]
            exact ih b sid s hs2 ha
        · simp only [disconnectLoop, ha0, if_false]
          have h3 := ih b sid s hs2 ha
          simpa [lookupA, hsid] using h3

/-- C3: the claim states that a failure of the uploaded-file deletion
during disconnect reconciliation neither prevents the removal of that
session record nor aborts cleanup of the remaining sessions.  The code
contradicts it: its try/catch wraps the whole for-in loop, so when the
unlink of doc1.pdf throws while connection A (controller of both S1
and S2) disconnects, the loop is abandoned before `delete
sessions[sessionId]` runs — S1 stays in the store, S2 is never
visited, and both records plus both files survive unchanged. -/
theorem disconnect_failure_aborts_traversal :
    (handleDisconnect "A" failingUnlink failSt).sessions = failSt.sessions ∧
    lookupA "S1" (handleDisconnect "A" failingUnlink failSt).sessions = some failSession1 ∧
    lookupA "S2" (handleDisconnect "A" failingUnlink failSt).sessions = some failSession2 ∧
    (handleDisconnect "A" failingUnlink failSt).blobs = failSt.blobs := by
  refine ⟨rfl, rfl, rfl, rfl⟩

/-- C4: when the controller of a session disconnects (and no unlink
call fails), the record becomes unreachable in the store and the
uploaded file named by its pdfUrl is gone from the blob store; the
statement carries no hypothesis on the viewer set, so the teardown is
unconditional even while viewers remain joined. -/
theorem controller_disconnect_teardown (c : ConnId) (st : ServerState) (sid : SessionId)
    (s : Session) (failing : String → Bool)
    (hf : ∀ f, failing f = false)
    (hnd : (st.sessions.map Prod.fst).Nodup) (hb : st.blobs.Nodup)
    (hs : lookupA sid st.sessions = some s) (ha : s.admin = c) :
    lookupA sid (handleDisconnect c failing st).sessions = none ∧
    basename s.pdfUrl ∉ (handleDisconnect c failing st).blobs :=
  disconnectLoop_admin_teardown c failing hf st.sessions st.blobs sid s hnd hb hs ha

/-- C4 witness: controller A of the demo session disconnects while
viewer B is still joined; the session is unreachable afterwards and
doc.pdf has left the blob store. -/
theorem controller_disconnect_teardown_witness :
    demoSession.viewers = ["B"] ∧
    lookupA "S" (handleDisconnect "A" (fun _ => false) demoSt).sessions = none ∧
    basename demoSession.pdfUrl ∉ (handleDisconnect "A" (fun _ => false) demoSt).blobs := by
  have h := controller_disconnect_teardown "A" demoSt "S" demoSession (fun _ => false)
    (fun _ => rfl) (by decide) (by decide) (by decide) (by decide)
  exact ⟨by decide, h.1, h.2⟩

/-- C9: when a connection c disconnects (and no unlink call fails),
every session whose controller is not c keeps its controller, page,
document URL and creation time — the stored record is the old one with
only the viewer set replaced — c is no longer a viewer, and every
other connection is a viewer afterwards exactly when it was before. -/
theorem viewer_disconnect_frame (c : ConnId) (st : ServerState) (sid : SessionId)
    (s : Session) (failing : String → Bool)
    (hf : ∀ f, failing f = false)
    (hs : lookupA sid st.sessions = some s) (ha : s.admin ≠ c) :
    lookupA sid (handleDisconnect c failing st).sessions =
      some { s with viewers := setDel c s.viewers } ∧
    c ∉ setDel c s.viewers ∧
    (∀ v, v ≠ c → (v ∈ setDel c s.viewers ↔ v ∈ s.viewers)) :=
  ⟨disconnectLoop_viewer_frame c failing hf st.sessions st.blobs sid s hs ha,
   setDel_not_mem c s.viewers,
   fun _ hv => mem_setDel_iff s.viewers hv⟩

/-- C9 witness: viewer B disconnects from the demo state; session S
keeps controller A, page 1 and its document URL, with B removed from
the viewer set. -/
theorem viewer_disconnect_frame_witness :
    lookupA "S" (handleDisconnect "B" (fun _ => false) demoSt).sessions =
      some { demoSession with viewers := setDel "B" demoSession.viewers } ∧
    "B" ∉ setDel "B" demoSession.viewers := by
  have h := viewer_disconnect_frame "B" demoSt "S" demoSession (fun _ => false)
    (fun _ => rfl) (by decide) (by decide)
  exact ⟨h.1, h.2.1⟩

/- Lemmas for the trace invariants. -/

theorem lookupA_append_ne {β : Type} {a b : String} (v : β) (l : List (String × β))
    (h : b ≠ a) : lookupA b (l ++ [(a, v)]) = lookupA b l := by
  induction l with
  | nil =>
      have h2 : a ≠ b := fun h3 => h h3.symm
      simp [lookupA, h2]
  | cons p rest ih =>
      obtain ⟨k2, w⟩ := p
      by_cases hk : k2 = b
      · simp [lookupA, hk]
      · simp [lookupA, hk, ih]

theorem lookupA_updateA_of_some {β : Type} {k : String} {l : List (String × β)} {w : β}
    (v : β) (h : lookupA k l = some w) : lookupA k (updateA k v l) = some v := by
  rw [lookupA_updateA_self, h]
  rfl

theorem lookupA_insertA_self {β : Type} (k : String) (v : β) (l : List (String × β)) :
    lookupA k (insertA k v l) = some v := by
  by_cases h2 : (lookupA k l).isSome
  · obtain ⟨w, hw⟩ := Option.isSome_iff_exists.1 h2
    simp only [insertA, h2, if_true]
    exact lookupA_updateA_of_some v hw
  · have h3 : lookupA k l = none := Option.not_isSome_iff_eq_none.1 h2
    simp only [insertA, h2, if_false, Bool.false_eq_true]
    exact lookupA_append_none v h3

theorem lookupA_insertA_ne {β : Type} {a b : String} (v : β) (l : List (String × β))
    (h : b ≠ a) : lookupA b (insertA a v l) = lookupA b l := by
  by_cases h2 : (lookupA a l).isSome
  · simp only [insertA, h2, if_true]
    exact lookupA_updateA_ne v l h
  · simp only [insertA, h2, if_false, Bool.false_eq_true]
    exact lookupA_append_ne v l h

theorem insertA_keys_nodup {β : Type} (k : String) (v : β) (l : List (String × β))
    (h : (l.map Prod.fst).Nodup) : ((insertA k v l).map Prod.fst).Nodup := by
  by_cases h2 : (lookupA k l).isSome
  · simpa only [insertA, h2, if_true, updateA_keys] using h
  · have h3 : lookupA k l = none := Option.not_isSome_iff_eq_none.1 h2
    have h4 : k ∉ l.map Prod.fst := lookupA_eq_none.1 h3
    simp only [insertA, h2, if_false, Bool.false_eq_true, List.map_append, List.map_cons,
      List.map_nil]
    rw [List.nodup_append]
    refine ⟨h, List.nodup_singleton k, ?_⟩
    intro a ha hb
    simp only [List.mem_singleton] at hb
    subst hb
    exact h4 ha

theorem mem_setAdd_iff {x y : String} (l : List String) :
    y ∈ setAdd x l ↔ y ∈ l ∨ y = x := by
  by_cases h : x ∈ l
  · simp only [setAdd, h, if_true]
    constructor
    · exact Or.inl
    · rintro (h2 | rfl)
      · exact h2
      · exact h
  · simp [setAdd, h]

theorem mem_of_mem_setDel {x y : String} {l : List String} (h : y ∈ setDel x l) :
    y ∈ l :=
  (List.mem_filter.1 h).1

theorem pageChange_sessions_unauth (c : ConnId) (sid : SessionId) (n : Int)
    (st : ServerState) {s : Session} (h2 : lookupA sid st.sessions = some s)
    (h3 : s.admin ≠ c) : (pageChange c sid n st).1.sessions = st.sessions := by
  simp only [pageChange, h2]
  rw [if_pos h3]

theorem pageChange_sessions_auth (c : ConnId) (sid : SessionId) (n : Int)
    (st : ServerState) {s : Session} (h2 : lookupA sid st.sessions = some s)
    (h3 : ¬s.admin ≠ c) :
    (pageChange c sid n st).1.sessions
      = updateA sid { s with currentPage := n } st.sessions := by
  simp only [pageChange, h2]
  rw [if_neg h3]

theorem step_keys_nodup (op : Op) (st : ServerState)
    (h : (st.sessions.map Prod.fst).Nodup) :
    ((step op st).sessions.map Prod.fst).Nodup := by
  cases op with
  | create c sid url now =>
      simpa only [step, createSession] using insertA_keys_nodup sid _ st.sessions h
  | join c sid =>
      cases h2 : lookupA sid st.sessions with
      | none => simpa only [step, joinSession, h2] using h
      | some s => simpa only [step, joinSession, h2, updateA_keys] using h
  | page c sid n =>
      cases h2 : lookupA sid st.sessions with
      | none => simpa only [step, pageChange, h2] using h
      | some s =>
          by_cases h3 : s.admin ≠ c
          · have h4 := pageChange_sessions_unauth c sid n st h2 h3
            simp only [step]
            rw [h4]
            exact h
          · have h4 := pageChange_sessions_auth c sid n st h2 h3
            simp only [step]
            rw [h4, updateA_keys]
            exact h
  | disconnect c failing =>
      simp only [step, handleDisconnect]
      exact List.Nodup.sublist (disconnectLoop_keys_sublist c failing st.sessions st.blobs) h

theorem step_viewer_inv (op : Op) (st : ServerState)
    (hnd : (st.sessions.map Prod.fst).Nodup)
    (hinv : ∀ sid s, lookupA sid st.sessions = some s → s.admin ∉ s.viewers)
    (hok : stepOk op st = true) :
    ∀ sid s, lookupA sid (step op st).sessions = some s → s.admin ∉ s.viewers := by
  cases op with
  | create c sid0 url now =>
      intro sid s h
      simp only [step, createSession] at h
      by_cases hq : sid = sid0
      · subst hq
        rw [lookupA_insertA_self] at h
        injection h with h
        subst h
        simp
      · rw [lookupA_insertA_ne _ _ hq] at h
        exact hinv sid s h
  | join c sid0 =>
      intro sid s h
      cases h2 : lookupA sid0 st.sessions with
      | none =>
          simp only [step, joinSession, h2] at h
          exact hinv sid s h
      | some s0 =>
          have hne : s0.admin ≠ c := by
            simp only [stepOk, h2] at hok
            exact bne_iff_ne.1 hok
          simp only [step, joinSession, h2] at h
          by_cases hq : sid = sid0
          · subst hq
            rw [lookupA_updateA_of_some _ h2] at h
            injection h with h
            subst h
            intro hmem
            rcases (mem_setAdd_iff s0.viewers).1 hmem with h3 | h3
            · exact hinv sid s0 h2 h3
            · exact hne h3
          · rw [lookupA_updateA_ne _ _ hq] at h
            exact hinv sid s h
  | page c sid0 n =>
      intro sid s h
      cases h2 : lookupA sid0 st.sessions with
      | none =>
          simp only [step, pageChange, h2] at h
          exact hinv sid s h
      | some s0 =>
          by_cases h3 : s0.admin ≠ c
          · have h4 := pageChange_sessions_unauth c sid0 n st h2 h3
            simp only [step] at h
            rw [h4] at h
            exact hinv sid s h
          · have h4 := pageChange_sessions_auth c sid0 n st h2 h3
            simp only [step] at h
            rw [h4] at h
            by_cases hq : sid = sid0
            · subst hq
              rw [lookupA_updateA_of_some _ h2] at h
              injection h with h
              subst h
              exact hinv sid s0 h2
            · rw [lookupA_updateA_ne _ _ hq] at h
              exact hinv sid s h
  | disconnect c failing =>
      intro sid s h
      simp only [step, handleDisconnect] at h
      obtain ⟨s1, hs1, hcase⟩ :=
        disconnectLoop_lookup_src c failing st.sessions st.blobs sid s hnd h
      rcases hcase with h3 | h3
      · rw [h3]
        exact hinv sid s1 hs1
      · rw [h3]
        intro hmem
        exact hinv sid s1 hs1 (mem_of_mem_setDel hmem)

theorem run_viewer_inv (ops : List Op) :
    ∀ st, (st.sessions.map Prod.fst).Nodup →
      (∀ sid s, lookupA sid st.sessions = some s → s.admin ∉ s.viewers) →
      NoSelfJoin ops st →
      ∀ sid s, lookupA sid (run ops st).sessions = some s → s.admin ∉ s.viewers := by
  induction ops with
  | nil =>
      intro st _ hinv _
      exact hinv
  | cons op rest ih =>
      intro st hnd hinv hok
      exact ih (step op st) (step_keys_nodup op st hnd)
        (step_viewer_inv op st hnd hinv hok.1) hok.2

theorem step_page_pos (op : Op) (st : ServerState)
    (hnd : (st.sessions.map Prod.fst).Nodup)
    (hinv : ∀ sid s, lookupA sid st.sessions = some s → 0 < s.currentPage)
    (hop : pagePositive op) :
    ∀ sid s, lookupA sid (step op st).sessions = some s → 0 < s.currentPage := by
  cases op with
  | create c sid0 url now =>
      intro sid s h
      simp only [step, createSession] at h
      by_cases hq : sid = sid0
      · subst hq
        rw [lookupA_insertA_self] at h
        injection h with h
        subst h
        exact Int.one_pos
      · rw [lookupA_insertA_ne _ _ hq] at h
        exact hinv sid s h
  | join c sid0 =>
      intro sid s h
      cases h2 : lookupA sid0 st.sessions with
      | none =>
          simp only [step, joinSession, h2] at h
          exact hinv sid s h
      | some s0 =>
          simp only [step, joinSession, h2] at h
          by_cases hq : sid = sid0
          · subst hq
            rw [lookupA_updateA_of_some _ h2] at h
            injection h with h
            subst h
            exact hinv sid s0 h2
          · rw [lookupA_updateA_ne _ _ hq] at h
            exact hinv sid s h
  | page c sid0 n =>
      intro sid s h
      cases h2 : lookupA sid0 st.sessions with
      | none =>
          simp only [step, pageChange, h2] at h
          exact hinv sid s h
      | some s0 =>
          by_cases h3 : s0.admin ≠ c
          · have h4 := pageChange_sessions_unauth c sid0 n st h2 h3
            simp only [step] at h
            rw [h4] at h
            exact hinv sid s h
          · have h4 := pageChange_sessions_auth c sid0 n st h2 h3
            simp only [step] at h
            rw [h4] at h
            by_cases hq : sid = sid0
            · subst hq
              rw [lookupA_updateA_of_some _ h2] at h
              injection h with h
              subst h
              exact hop
            · rw [lookupA_updateA_ne _ _ hq] at h
              exact hinv sid s h
  | disconnect c failing =>
      intro sid s h
      simp only [step, handleDisconnect] at h
      obtain ⟨s1, hs1, hcase⟩ :=
        disconnectLoop_lookup_src c failing st.sessions st.blobs sid s hnd h
      rcases hcase with h3 | h3
      · rw [h3]
        exact hinv sid s1 hs1
      · rw [h3]
        exact hinv sid s1 hs1

theorem run_page_pos (ops : List Op) :
    ∀ st, (st.sessions.map Prod.fst).Nodup →
      (∀ sid s, lookupA sid st.sessions = some s → 0 < s.currentPage) →
      (∀ op ∈ ops, pagePositive op) →
      ∀ sid s, lookupA sid (run ops st).sessions = some s → 0 < s.currentPage := by
  induction ops with
  | nil =>
      intro st _ hinv _
      exact hinv
  | cons op rest ih =>
      intro st hnd hinv hop
      exact ih (step op st) (step_keys_nodup op st hnd)
        (step_page_pos op st hnd hinv (hop op (List.mem_cons_self op rest)))
        (fun op2 h2 => hop op2 (List.mem_cons_of_mem op h2))

/-- C2 counterexample: the join-session handler never compares the
joining connection against the controller, so the two-event trace in
which A creates session S and then sends join-session for S is
accepted, and afterwards the controller A sits inside the viewer set
of its own session — the claimed invariant fails on this run. -/
theorem controller_in_viewers_counterexample :
    lookupA "S" (run selfJoinTrace emptyState).sessions = some selfJoinResult ∧
    selfJoinResult.admin ∈ selfJoinResult.viewers :=
  ⟨rfl, by decide⟩

/-- C2 (amended): over every sequence of create/join/page-change/
disconnect events starting from the empty store in which no connection
ever joins a session it itself controls, every stored session keeps
its controller out of its viewer set. -/
theorem controller_never_viewer_amended (ops : List Op) (h : NoSelfJoin ops emptyState) :
    ∀ sid s, lookupA sid (run ops emptyState).sessions = some s → s.admin ∉ s.viewers :=
  run_viewer_inv ops emptyState (by simp [emptyState])
    (fun sid s h2 => by simp [emptyState, lookupA] at h2) h

/-- C2 witness: after A creates session S and the distinct connection
B joins it, the stored record has controller A and viewer set
containing only B, and the amended invariant applies to the run. -/
theorem controller_never_viewer_amended_witness :
    lookupA "S" (run okTrace emptyState).sessions = some okResult ∧
    okResult.admin ∉ okResult.viewers := by
  refine ⟨rfl, ?_⟩
  exact controller_never_viewer_amended okTrace ⟨by decide, by decide, trivial⟩
    "S" okResult rfl

/-- C7 counterexample: the page-change handler stores the incoming
page number without validation, so after A creates session S and sends
page-change with page number 0, the stored currentPage is 0, which is
not a positive integer — the claim fails on an input the operations
accept. -/
theorem currentPage_positive_counterexample :
    lookupA "S" (run zeroPageTrace emptyState).sessions = some zeroPageResult ∧
    ¬0 < zeroPageResult.currentPage :=
  ⟨rfl, by decide⟩

/-- C7 (amended): currentPage is initialized to 1 at creation, and
over every sequence of create/join/page-change/disconnect events from
the empty store whose page-change events all carry a positive page
number, every stored session has a positive currentPage (the handler
itself never validates the number). -/
theorem currentPage_positive_amended (ops : List Op)
    (h : ∀ op ∈ ops, pagePositive op) :
    ∀ sid s, lookupA sid (run ops emptyState).sessions = some s → 0 < s.currentPage :=
  run_page_pos ops emptyState (by simp [emptyState])
    (fun sid s h2 => by simp [emptyState, lookupA] at h2) h

/-- C7 witness: the trace that creates session S and turns it to page
5 ends with currentPage 5, a positive integer. -/
theorem currentPage_positive_amended_witness :
    lookupA "S" (run posTrace emptyState).sessions = some posResult ∧
    0 < posResult.currentPage := by
  refine ⟨rfl, ?_⟩
  refine currentPage_positive_amended posTrace ?_ "S" posResult rfl
  intro op hop
  simp only [posTrace, List.mem_cons, List.not_mem_nil, or_false] at hop
  rcases hop with rfl | rfl
  · trivial
  · exact (by decide : (0 : Int) < 5)

end PdfCoviewer
